import Mathlib

/-!
Verification of the vs-mgr server update manager against its specification.

The Python sources are shallowly embedded: strings are Lean `String`
(a wrapper around `List Char`, which the path and pattern functions below
manipulate directly), fallible operations return `Except`/`Option`, and the
effectful orchestration code is modelled as explicit state passing driven by
oracles recording the outcome of each external action (process exits, HTTP
status, filesystem operations).
-/

namespace VsMgr

/-- Longest common character prefix of two character lists.  This is the
character-wise semantics of Python's `os.path.commonprefix` on two strings. -/
def commonPrefixChars : List Char → List Char → List Char
  | a :: as, b :: bs => if a = b then a :: commonPrefixChars as bs else []
  | _, _ => []

/-- Character-list prefix test (`str.startswith`). -/
def isPrefixChars : List Char → List Char → Bool
  | [], _ => true
  | _ :: _, [] => false
  | a :: as, b :: bs => a = b && isPrefixChars as bs

/-- Character-list suffix test (`str.endswith`). -/
def isSuffixChars (p s : List Char) : Bool :=
  isPrefixChars p.reverse s.reverse

/-- Split a character list on a separator character, Python `str.split(sep)`
semantics: splitting the empty string yields one empty field. -/
def splitOnChar (sep : Char) : List Char → List (List Char)
  | [] => [[]]
  | c :: cs =>
    let rest := splitOnChar sep cs
    if c = sep then [] :: rest
    else
      match rest with
      | r :: rs => (c :: r) :: rs
      | [] => [[c]]

/-- `str.startswith` on `String`. -/
def strStartsWith (s p : String) : Bool :=
  isPrefixChars p.data s.data

/-- `str.endswith` on `String`. -/
def strEndsWith (s p : String) : Bool :=
  isSuffixChars p.data s.data

theorem isPrefixChars_append (p s : List Char) :
    isPrefixChars p (p ++ s) = true := by
  induction p with
  | nil => rfl
  | cons a as ih => simp [isPrefixChars, ih]

/-! ## Version comparison (`src/versioning.py`, `VersionChecker.compare_versions`) -/

namespace Versioning

/-- Numeric value of a digit string (base 10). -/
def digitsToNat (cs : List Char) : Nat :=
  cs.foldl (fun n c => n * 10 + (c.toNat - 48)) 0

/-- Drop one leading `v` if present; this is
`s[1:] if s.startswith("v") else s` at the character level. -/
def stripLeadingV : List Char → List Char
  | 'v' :: r => r
  | l => l

theorem stripLeadingV_of_ne (c : Char) (cs : List Char) (h : c ≠ 'v') :
    stripLeadingV (c :: cs) = c :: cs := by
  unfold stripLeadingV
  split
  · next r heq =>
      injection heq with h1 _
      exact absurd h1 h
  · rfl

/-- The external `packaging.version.parse`, restricted to the plain release
versions this program compares: an optional single leading `v` (tolerated by
PEP 440 normalization) followed by dot-separated decimal components.  Anything
else is `InvalidVersion`, modelled as `none`. -/
def parseVersion (s : String) : Option (List Nat) :=
  let cs : List Char := stripLeadingV s.data
  let parts := splitOnChar '.' cs
  if parts.all (fun p => !p.isEmpty && p.all Char.isDigit) then
    some (parts.map digitsToNat)
  else
    none

/-- Extend a release tuple with zeros up to length `n` (PEP 440 pads the
shorter release when comparing). -/
def padZeros (l : List Nat) (n : Nat) : List Nat :=
  l ++ List.replicate (n - l.length) 0

/-- Lexicographic three-way comparison of equal-length numeric tuples. -/
def cmpList : List Nat → List Nat → Int
  | [], [] => 0
  | [], _ :: _ => -1
  | _ :: _, [] => 1
  | a :: as, b :: bs =>
    if a < b then -1 else if b < a then 1 else cmpList as bs

/-- Three-way comparison of two release tuples after zero padding. -/
def cmpRelease (x y : List Nat) : Int :=
  cmpList (padZeros x y.length) (padZeros y x.length)

/-- `VersionChecker.compare_versions` (src/versioning.py lines 105-147):
strip a potential leading `v` from each argument, parse both with
`packaging.version.parse`, and return -1/0/1; an invalid version raises
`VersioningError`, modelled as `.error ()`. -/
def compare_versions (ver1 ver2 : String) : Except Unit Int :=
  let ver1Norm : String := ⟨stripLeadingV ver1.data⟩
  let ver2Norm : String := ⟨stripLeadingV ver2.data⟩
  match parseVersion ver1Norm, parseVersion ver2Norm with
  | some a, some b => .ok (cmpRelease a b)
  | _, _ => .error ()

end Versioning

/-! ## Archive extraction (`src/src/vs_mgr/archiver.py`, `TarfileArchiver`) -/

namespace Archiver

/-- `os.path.join dir name` for the single use in `extractall`: an absolute
second argument discards the first (`dir` is absolute and slash-free at the
end in every call site). -/
def pathJoin (dir name : String) : String :=
  if isPrefixChars ['/'] name.data then name
  else ⟨dir.data ++ '/' :: name.data⟩

/-- Normalize the components of an absolute path the way `os.path.normpath`
does: drop empty and `.` components, resolve `..` against the stack (at the
root, `..` is discarded). -/
def normComps (comps : List (List Char)) : List (List Char) :=
  comps.foldl
    (fun stack c =>
      if c = [] ∨ c = ['.'] then stack
      else if c = ['.', '.'] then stack.dropLast
      else stack ++ [c])
    []

/-- Re-join path components with `/`. -/
def joinComps : List (List Char) → List Char
  | [] => []
  | [c] => c
  | c :: cs => c ++ '/' :: joinComps cs

/-- `os.path.abspath` on an already-absolute path: pure textual
normalization (the only inputs here are absolute because the destination is
absolute and member names are joined onto it). -/
def absPath (p : String) : String :=
  ⟨'/' :: joinComps (normComps (splitOnChar '/' p.data))⟩

/-- `is_within_directory` from `TarfileArchiver.extractall`
(src/src/vs_mgr/archiver.py lines 37-41): the character-wise
`os.path.commonprefix` of the two absolute paths must equal the absolute
directory. -/
def is_within_directory (directory target : String) : Bool :=
  commonPrefixChars (absPath directory).data (absPath target).data
    = (absPath directory).data

/-- `TarfileArchiver.extractall` (src/src/vs_mgr/archiver.py lines 19-54),
with an archive represented by its member names: `safe_extract` first checks
every member with `is_within_directory`; if any check fails a `SecurityError`
is raised (the method returns `False`, modelled `.error ()`), and only
otherwise does `tar.extractall` run, writing every member at its resolved
path.  The result is the list of absolute paths written. -/
def extractall (members : List String) (destPath : String) : Except Unit (List String) :=
  if members.all (fun m => is_within_directory destPath (pathJoin destPath m)) then
    .ok (members.map (fun m => absPath (pathJoin destPath m)))
  else
    .error ()

/-- Specification-side notion used by the claim: a resolved absolute path
lies inside the destination directory (it is the destination or a proper
descendant of it). -/
def resolvesInside (dir p : String) : Bool :=
  p = dir || isPrefixChars (dir.data ++ ['/']) p.data

end Archiver

/-! ## Backup engine (`src/backup.py`, `BackupManager`) -/

namespace Backup

/-- Filename pattern from `_get_sorted_backups`:
`f.startswith("vs_data_backup_") and f.endswith(".tar.zst")`. -/
def matchesBackupPattern (f : String) : Bool :=
  strStartsWith f "vs_data_backup_" && strEndsWith f ".tar.zst"

/-- One file of the backup directory: name, the result `os.path.getmtime`
would report (`none` models a `FileSystemError` raised by `getmtime`), and
abstract contents.  Paths are backup-directory-relative throughout the model
(the source joins the fixed `backup_dir` onto each listed name). -/
structure Entry where
  name : String
  mtime : Option ℚ
  content : Nat
deriving DecidableEq

/-- Sort key semantics of `backups.sort(key=lambda x: x[0], reverse=True)`:
descending by modification time.  (Python's sort is stable; no property
proved here depends on the order of equal keys.) -/
def byMtimeDesc (a b : ℚ × String) : Prop := b.1 ≤ a.1

instance : DecidableRel byMtimeDesc := fun a b =>
  inferInstanceAs (Decidable (b.1 ≤ a.1))

instance : IsTotal (ℚ × String) byMtimeDesc :=
  ⟨fun a b => le_total b.1 a.1⟩

instance : IsTrans (ℚ × String) byMtimeDesc :=
  ⟨fun _ _ _ hab hbc => le_trans hbc hab⟩

/-- The `(mtime, path)` pair `_get_sorted_backups` records for one listed
file: a failed `getmtime` yields the default time `0.0`. -/
def entryPair (e : Entry) : ℚ × String :=
  (e.mtime.getD 0, e.name)

/-- `BackupManager._get_sorted_backups` (src/backup.py lines 352-380): keep
the names matching the backup pattern in listing order, pair each with its
modification time — a file whose `getmtime` raises is logged and kept with
time `0.0` — and sort newest first. -/
def _get_sorted_backups (dir : List Entry) : List (ℚ × String) :=
  let backups :=
    (dir.filter (fun e => matchesBackupPattern e.name)).map entryPair
  List.insertionSort byMtimeDesc backups

/-- `BackupManager._rotate_backups` (src/backup.py lines 297-350): a no-op
when `max_backups ≤ 0` or when at most `max_backups` matching files exist;
otherwise every file of the sorted listing beyond the first `max_backups` is
removed.  Removal is best-effort per file: `removeOk` records whether each
individual `filesystem.remove` succeeds; a failure is logged and rotation
continues. -/
def _rotate_backups (maxBackups : Int) (removeOk : String → Bool)
    (dir : List Entry) : List Entry :=
  if maxBackups ≤ 0 then dir
  else if ((_get_sorted_backups dir).length : Int) ≤ maxBackups then dir
  else
    dir.filter (fun e =>
      !(((_get_sorted_backups dir).drop maxBackups.toNat).any
          (fun p => p.2 = e.name) && removeOk e.name))

theorem length_filter_by_name (l : List Entry) (p : String → Bool) :
    (l.filter (fun e => p e.name)).length
      = ((l.map Entry.name).filter p).length := by
  induction l with
  | nil => rfl
  | cons a l ih =>
    by_cases h : p a.name <;> simp [List.filter_cons, h, ih]

theorem length_filter_mem_of_nodup (ns ds : List String)
    (hns : ns.Nodup) (hds : ds.Nodup) (hsub : ∀ x ∈ ds, x ∈ ns) :
    (ns.filter (fun n => decide (n ∈ ds))).length = ds.length := by
  have hperm : List.Perm (ns.filter (fun n => decide (n ∈ ds))) ds := by
    rw [List.perm_ext_iff_of_nodup (hns.filter _) hds]
    intro a
    simp only [List.mem_filter, decide_eq_true_eq]
    exact ⟨fun h => h.2, fun h => ⟨hsub a h, h⟩⟩
  exact hperm.length_eq

/-- In a list sorted descending by key, an element strictly below every
other element is the last one. -/
theorem getLast_eq_of_strict_min (l : List (ℚ × String)) (x : ℚ × String)
    (hs : l.Sorted byMtimeDesc) (hx : x ∈ l)
    (hmin : ∀ p ∈ l, p ≠ x → x.1 < p.1) :
    l.getLast? = some x := by
  induction l with
  | nil => cases hx
  | cons a l ih =>
    cases l with
    | nil =>
      simp only [List.mem_singleton] at hx
      simp [hx]
    | cons b l' =>
      rw [List.getLast?_cons_cons]
      have hbx : x ∈ b :: l' := by
        rcases List.mem_cons.mp hx with rfl | hx2
        · by_cases hbe : b = x
          · exact hbe ▸ List.mem_cons_self b l'
          · have h1 : x.1 < b.1 := hmin b (List.mem_cons_of_mem x (List.mem_cons_self b l')) hbe
            have h2 : byMtimeDesc x b :=
              (List.pairwise_cons.mp hs).1 b (List.mem_cons_self b l')
            exact absurd h1 (not_lt.mpr h2)
        · exact hx2
      exact ih hs.of_cons hbx
        (fun p hp hne => hmin p (List.mem_cons_of_mem a hp) hne)

/-- The filesystem as `create_backup` observes it: whether the data
directory is a directory, whether the backup directory exists, and the
backup directory's files. -/
structure BackupFS where
  dataDirIsDir : Bool
  backupDirExists : Bool
  backupFiles : List Entry
deriving DecidableEq

/-- Outcomes of the effectful steps of one `create_backup` run. -/
structure BackupOracle where
  archiveOk : Bool
  compressOk : Bool
  partialOnFail : Bool
  removeOk : String → Bool
  newMtime : ℚ
  newContent : Nat
  partialContent : Nat

/-- `BackupManager.create_backup` (src/backup.py lines 55-221).  The name is
`vs_data_backup_<timestamp>.tar.zst`; preflight requires the data directory
(a `BackupError` that `ignore_failure` does not soften), logs a best-effort
size estimate (no state effect), ensures the backup directory exists and
chowns it (warn-only).  Under dry run the intended path is returned with
nothing written.  Otherwise a temporary tar is built (in the separate temp
directory, outside this filesystem view) and compressed into the backup
directory; on failure a partially-written file is removed best-effort and
the error propagates unless `ignore_failure`, which yields `none`; on
success the file is chowned (warn-only) and rotation runs when
`max_backups > 0`.  The state component is returned in every case, the
second component being the raised error or the returned value. -/
def create_backup (backupDir : String) (dryRun : Bool) (maxBackups : Int)
    (ts : String) (ignoreFailure : Bool) (o : BackupOracle) (fs : BackupFS) :
    BackupFS × Except Unit (Option String) :=
  let backupFilename := "vs_data_backup_" ++ ts ++ ".tar.zst"
  let backupFilePath := backupDir ++ "/" ++ backupFilename
  if !fs.dataDirIsDir then (fs, .error ())
  else
    let fs1 : BackupFS := { fs with backupDirExists := true }
    if dryRun then (fs1, .ok (some backupFilePath))
    else if !o.archiveOk then
      -- tar creation failed; no backup file was written yet, cleanup finds
      -- nothing to remove
      if ignoreFailure then (fs1, .ok none) else (fs1, .error ())
    else if !o.compressOk then
      -- compression failed, possibly leaving a partial file that
      -- `_cleanup_failed_backup` removes best-effort
      let fs2 : BackupFS :=
        if o.partialOnFail ∧ ¬(o.removeOk backupFilename = true) then
          { fs1 with
              backupFiles :=
                fs1.backupFiles ++ [⟨backupFilename, some o.newMtime, o.partialContent⟩] }
        else fs1
      if ignoreFailure then (fs2, .ok none) else (fs2, .error ())
    else
      let fs2 : BackupFS :=
        { fs1 with
            backupFiles :=
              fs1.backupFiles ++ [⟨backupFilename, some o.newMtime, o.newContent⟩] }
      let fs3 : BackupFS :=
        if 0 < maxBackups then
          { fs2 with backupFiles := _rotate_backups maxBackups o.removeOk fs2.backupFiles }
        else fs2
      (fs3, .ok (some backupFilePath))

end Backup

end VsMgr

/-- C7: under dry run, when the preflight checks pass (the data directory is
a directory; the backup directory exists), `create_backup` returns the
intended path `<backup_dir>/vs_data_backup_<timestamp>.tar.zst` and the
filesystem — in particular every file of the backup directory — is
unchanged, whatever the step oracles and flags are. -/
theorem VsMgr.Backup.create_backup_dry_run_unchanged
    (bdir ts : String) (maxB : Int) (ignoreFailure : Bool)
    (o : VsMgr.Backup.BackupOracle) (files : List VsMgr.Backup.Entry) :
    VsMgr.Backup.create_backup bdir true maxB ts ignoreFailure o
        ⟨true, true, files⟩
      = (⟨true, true, files⟩,
         .ok (some (bdir ++ "/" ++ ("vs_data_backup_" ++ ts ++ ".tar.zst")))) := by
  rfl

/-- C1: extraction is claimed to reject every archive containing an entry
that resolves outside the destination.  The code's `is_within_directory`
uses character-wise `os.path.commonprefix`, which also accepts sibling paths
whose name merely extends the destination as a string: with destination
`/tmp/extract`, the member `../extractX/evil` resolves to
`/tmp/extractX/evil`, which is outside the destination, yet the check passes
and `tar.extractall` writes the file there.  This theorem evaluates the
embedded `extractall` at that failing input. -/
theorem VsMgr.Archiver.extractall_accepts_escaping_member :
    VsMgr.Archiver.extractall ["../extractX/evil"] "/tmp/extract"
      = .ok ["/tmp/extractX/evil"] ∧
    VsMgr.Archiver.resolvesInside "/tmp/extract" "/tmp/extractX/evil" = false := by
  constructor
  · rfl
  · rfl

/-- C9: the three concrete orderings from the specification, and invariance
under a leading `v`: for any version string `s` that does not already start
with `v`, prefixing `v` changes neither comparisons where it is the first
argument nor ones where it is the second. -/
theorem VsMgr.Versioning.compare_versions_ordering :
    (VsMgr.Versioning.compare_versions "1.19.4" "v1.19.5" = .ok (-1) ∧
     VsMgr.Versioning.compare_versions "v1.19.5" "1.19.5" = .ok 0 ∧
     VsMgr.Versioning.compare_versions "2.0.0" "1.9.9" = .ok 1) ∧
    ∀ s t : String, s.data.head? ≠ some 'v' →
      VsMgr.Versioning.compare_versions ("v" ++ s) t
        = VsMgr.Versioning.compare_versions s t ∧
      VsMgr.Versioning.compare_versions t ("v" ++ s)
        = VsMgr.Versioning.compare_versions t s := by
  refine ⟨⟨rfl, rfl, rfl⟩, ?_⟩
  intro s t h
  obtain ⟨cs⟩ := s
  have hv : ("v" ++ String.mk cs) = String.mk ('v' :: cs) := rfl
  have hstrip : VsMgr.Versioning.stripLeadingV cs = cs := by
    cases cs with
    | nil => rfl
    | cons c cs' =>
        have hc : c ≠ 'v' := by
          intro hcv
          exact h (by simp [hcv])
        exact VsMgr.Versioning.stripLeadingV_of_ne c cs' hc
  have hdrop : VsMgr.Versioning.stripLeadingV ('v' :: cs) = cs := rfl
  constructor
  · rw [hv]
    show VsMgr.Versioning.compare_versions ⟨'v' :: cs⟩ t
      = VsMgr.Versioning.compare_versions ⟨cs⟩ t
    unfold VsMgr.Versioning.compare_versions
    rw [hdrop, hstrip]
  · rw [hv]
    show VsMgr.Versioning.compare_versions t ⟨'v' :: cs⟩
      = VsMgr.Versioning.compare_versions t ⟨cs⟩
    unfold VsMgr.Versioning.compare_versions
    rw [hdrop, hstrip]

/-- Witness for C9: the invariance theorem applied at the concrete pair
("1.19.5", "2.0.0"). -/
theorem VsMgr.Versioning.compare_versions_ordering_witness :
    ("1.19.5" : String).data.head? ≠ some 'v' ∧
    VsMgr.Versioning.compare_versions ("v" ++ "1.19.5") "2.0.0"
      = VsMgr.Versioning.compare_versions "1.19.5" "2.0.0" :=
  ⟨by decide,
   (VsMgr.Versioning.compare_versions_ordering.2 "1.19.5" "2.0.0" (by decide)).1⟩

namespace VsMgr.Backup

/-- C3: rotation with retention `K > 0` over a backup directory with
distinct file names, when every individual file deletion succeeds: exactly
`min(N, K)` pattern-matching files remain of the `N` present, and every
surviving matching file is at least as recently modified as every removed
file (so the survivors are the `K` most recent). -/
theorem rotate_keeps_k_most_recent
    (dir : List Entry) (K : Int) (removeOk : String → Bool)
    (hK : 0 < K)
    (hnodup : (dir.map Entry.name).Nodup)
    (hremove : ∀ n, removeOk n = true) :
    (((_rotate_backups K removeOk dir).filter
        (fun e => matchesBackupPattern e.name)).length : Int)
        = min ((dir.filter
            (fun e => matchesBackupPattern e.name)).length : Int) K
    ∧ ∀ e ∈ _rotate_backups K removeOk dir,
        matchesBackupPattern e.name = true →
        ∀ d ∈ dir, d ∉ _rotate_backups K removeOk dir →
          d.mtime.getD 0 ≤ e.mtime.getD 0 := by
  have hKle : ¬ K ≤ 0 := not_le.mpr hK
  have hperm : List.Perm (_get_sorted_backups dir)
      ((dir.filter (fun e => matchesBackupPattern e.name)).map entryPair) :=
    List.perm_insertionSort _ _
  have hsort : (_get_sorted_backups dir).Sorted byMtimeDesc :=
    List.sorted_insertionSort _ _
  have hlen : (_get_sorted_backups dir).length
      = (dir.filter (fun e => matchesBackupPattern e.name)).length := by
    rw [hperm.length_eq, List.length_map]
  by_cases hle : ((_get_sorted_backups dir).length : Int) ≤ K
  · have hres : _rotate_backups K removeOk dir = dir := by
      unfold _rotate_backups
      rw [if_neg hKle, if_pos hle]
    rw [hres]
    refine ⟨?_, ?_⟩
    · rw [hlen] at hle
      exact (min_eq_left hle).symm
    · intro e he hm d hd hdn
      exact absurd hd hdn
  · have hMnodup :
        ((dir.filter (fun e => matchesBackupPattern e.name)).map Entry.name).Nodup :=
      hnodup.sublist ((dir.filter_sublist).map Entry.name)
    have hnamesEq :
        ((dir.filter (fun e => matchesBackupPattern e.name)).map entryPair).map Prod.snd
          = (dir.filter (fun e => matchesBackupPattern e.name)).map Entry.name := by
      rw [List.map_map]; rfl
    have hsortedNames : List.Perm ((_get_sorted_backups dir).map Prod.snd)
        ((dir.filter (fun e => matchesBackupPattern e.name)).map Entry.name) := by
      rw [← hnamesEq]; exact hperm.map _
    have hsortedNamesNodup : ((_get_sorted_backups dir).map Prod.snd).Nodup :=
      hsortedNames.nodup_iff.mpr hMnodup
    have hDsub : (((_get_sorted_backups dir).drop K.toNat).map Prod.snd).Sublist
        ((_get_sorted_backups dir).map Prod.snd) :=
      (List.drop_sublist _ _).map _
    have hdnodup : (((_get_sorted_backups dir).drop K.toNat).map Prod.snd).Nodup :=
      hsortedNamesNodup.sublist hDsub
    have hdsub : ∀ x ∈ ((_get_sorted_backups dir).drop K.toNat).map Prod.snd,
        x ∈ (dir.filter (fun e => matchesBackupPattern e.name)).map Entry.name :=
      fun x hx => hsortedNames.mem_iff.mp (hDsub.subset hx)
    have hqeq : (fun e : Entry =>
          !(((_get_sorted_backups dir).drop K.toNat).any
              (fun p => p.2 = e.name) && removeOk e.name))
        = fun e : Entry =>
            !(decide (e.name ∈ ((_get_sorted_backups dir).drop K.toNat).map Prod.snd)) := by
      funext e
      rw [hremove e.name, Bool.and_true]
      congr 1
      have h1 : (((_get_sorted_backups dir).drop K.toNat).any
            (fun p => decide (p.2 = e.name)) = true)
          ↔ e.name ∈ ((_get_sorted_backups dir).drop K.toNat).map Prod.snd := by
        simp only [List.any_eq_true, decide_eq_true_eq, List.mem_map]
      cases hA : ((_get_sorted_backups dir).drop K.toNat).any
          (fun p => decide (p.2 = e.name)) with
      | true => exact (decide_eq_true (h1.mp hA)).symm
      | false =>
        refine (decide_eq_false ?_).symm
        intro hmem
        rw [h1.mpr hmem] at hA
        cases hA
    have hres : _rotate_backups K removeOk dir
        = dir.filter (fun e =>
            !(decide (e.name ∈ ((_get_sorted_backups dir).drop K.toNat).map Prod.snd))) := by
      unfold _rotate_backups
      rw [if_neg hKle, if_neg hle, hqeq]
    have hKM : (K : Int)
        < ((dir.filter (fun e => matchesBackupPattern e.name)).length : Int) := by
      rw [← hlen]; exact lt_of_not_le hle
    rw [hres]
    refine ⟨?_, ?_⟩
    · have hff : ((dir.filter (fun e =>
            !(decide (e.name ∈ ((_get_sorted_backups dir).drop K.toNat).map Prod.snd)))).filter
              (fun e => matchesBackupPattern e.name))
          = (dir.filter (fun e => matchesBackupPattern e.name)).filter
              (fun e =>
                !(decide (e.name ∈ ((_get_sorted_backups dir).drop K.toNat).map Prod.snd))) := by
        rw [List.filter_filter, List.filter_filter]
        apply List.filter_congr
        intro e he
        rw [Bool.and_comm]
      have hsplit := List.length_eq_length_filter_add
        (l := dir.filter (fun e => matchesBackupPattern e.name))
        (fun e : Entry =>
          !(decide (e.name ∈ ((_get_sorted_backups dir).drop K.toNat).map Prod.snd)))
      have hnn : (fun e : Entry => !(!(decide
            (e.name ∈ ((_get_sorted_backups dir).drop K.toNat).map Prod.snd))))
          = fun e : Entry =>
              decide (e.name ∈ ((_get_sorted_backups dir).drop K.toNat).map Prod.snd) := by
        funext e
        exact Bool.not_not _
      rw [hnn] at hsplit
      have hc4 : (((dir.filter (fun e => matchesBackupPattern e.name)).filter
            (fun e => decide
              (e.name ∈ ((_get_sorted_backups dir).drop K.toNat).map Prod.snd))).length)
          = (((_get_sorted_backups dir).drop K.toNat).map Prod.snd).length := by
        rw [length_filter_by_name _ (fun n =>
          decide (n ∈ ((_get_sorted_backups dir).drop K.toNat).map Prod.snd))]
        exact length_filter_mem_of_nodup _ _ hMnodup hdnodup hdsub
      have hdlen : (((_get_sorted_backups dir).drop K.toNat).map Prod.snd).length
          = (_get_sorted_backups dir).length - K.toNat := by
        rw [List.length_map, List.length_drop]
      rw [hff, min_eq_right (le_of_lt hKM)]
      rw [hc4, hdlen, hlen] at hsplit
      omega
    · intro e he hm d hd hdn
      have he' := List.mem_filter.mp he
      have heM : e ∈ dir.filter (fun e => matchesBackupPattern e.name) :=
        List.mem_filter.mpr ⟨he'.1, hm⟩
      have hkeepE : e.name ∉ ((_get_sorted_backups dir).drop K.toNat).map Prod.snd := by
        simpa using he'.2
      have hdropD : d.name ∈ ((_get_sorted_backups dir).drop K.toNat).map Prod.snd := by
        by_contra hcon
        exact hdn (List.mem_filter.mpr ⟨hd, by simpa using hcon⟩)
      obtain ⟨pd, hpdD, hpdname⟩ := List.mem_map.mp hdropD
      have hpdsorted : pd ∈ _get_sorted_backups dir := List.mem_of_mem_drop hpdD
      obtain ⟨d', hd'M, hd'pair⟩ := List.mem_map.mp (hperm.mem_iff.mp hpdsorted)
      have hd'name : d'.name = d.name := by
        rw [← hpdname, ← hd'pair]
        rfl
      have hd'd : d' = d :=
        List.inj_on_of_nodup_map hnodup (List.mem_of_mem_filter hd'M) hd hd'name
      have hpd : pd = entryPair d := by rw [← hd'pair, hd'd]
      have hpE : entryPair e ∈ _get_sorted_backups dir :=
        hperm.mem_iff.mpr (List.mem_map_of_mem _ heM)
      have hpEtake : entryPair e ∈ (_get_sorted_backups dir).take K.toNat := by
        have hsplitmem := List.mem_append.mp
          (by rw [List.take_append_drop] ; exact hpE :
            entryPair e ∈ (_get_sorted_backups dir).take K.toNat
              ++ (_get_sorted_backups dir).drop K.toNat)
        rcases hsplitmem with h | h
        · exact h
        · exact absurd (List.mem_map_of_mem Prod.snd h) hkeepE
      have hcross : ∀ x ∈ (_get_sorted_backups dir).take K.toNat,
          ∀ y ∈ (_get_sorted_backups dir).drop K.toNat, byMtimeDesc x y := by
        have h := hsort
        rw [← List.take_append_drop K.toNat (_get_sorted_backups dir)] at h
        exact (List.pairwise_append.mp h).2.2
      exact hcross _ hpEtake _ (hpd ▸ hpdD)

/-- Concrete backup directory (three matching files, one stray file) for the
rotation witness. -/
def rotateDirC3 : List Entry :=
  [⟨"vs_data_backup_20250101_000000.tar.zst", some 1, 0⟩,
   ⟨"vs_data_backup_20250102_000000.tar.zst", some 3, 0⟩,
   ⟨"notes.txt", some 9, 0⟩,
   ⟨"vs_data_backup_20250103_000000.tar.zst", some 2, 0⟩]

/-- Witness for C3: the rotation theorem at a concrete directory with three
matching files and retention 2. -/
theorem rotate_keeps_k_most_recent_witness :
    (0 : Int) < 2
    ∧ (rotateDirC3.map Entry.name).Nodup
    ∧ ((((_rotate_backups 2 (fun _ => true) rotateDirC3).filter
        (fun e => matchesBackupPattern e.name)).length : Int)
        = min ((rotateDirC3.filter
            (fun e => matchesBackupPattern e.name)).length : Int) 2
      ∧ ∀ e ∈ _rotate_backups 2 (fun _ => true) rotateDirC3,
          matchesBackupPattern e.name = true →
          ∀ d ∈ rotateDirC3, d ∉ _rotate_backups 2 (fun _ => true) rotateDirC3 →
            d.mtime.getD 0 ≤ e.mtime.getD 0) :=
  ⟨by norm_num, by decide,
   rotate_keeps_k_most_recent rotateDirC3 2 (fun _ => true)
     (by norm_num) (by decide) (fun _ => rfl)⟩

/-- C10: a file matching the backup pattern whose `getmtime` raises is still
listed, with timestamp `0.0`; when every other matching file has a positive
modification time it sorts last — after every file with a readable
timestamp — and whenever rotation must remove entries (more matching files
than the retention `K > 0`) it is among the entries selected for removal. -/
theorem unreadable_mtime_listed_last_removed
    (dir : List Entry) (f : String) (c : Nat)
    (hmatch : matchesBackupPattern f = true)
    (hmem : Entry.mk f none c ∈ dir)
    (hnodup : (dir.map Entry.name).Nodup)
    (hothers : ∀ e ∈ dir, matchesBackupPattern e.name = true → e.name ≠ f →
        ∃ q, e.mtime = some q ∧ 0 < q) :
    ((0 : ℚ), f) ∈ _get_sorted_backups dir
    ∧ (_get_sorted_backups dir).getLast? = some (0, f)
    ∧ ∀ K : Int, 0 < K →
        (K : Int) < ((dir.filter
            (fun e => matchesBackupPattern e.name)).length : Int) →
        ((0 : ℚ), f) ∈ (_get_sorted_backups dir).drop K.toNat := by
  have hperm : List.Perm (_get_sorted_backups dir)
      ((dir.filter (fun e => matchesBackupPattern e.name)).map entryPair) :=
    List.perm_insertionSort _ _
  have hsort : (_get_sorted_backups dir).Sorted byMtimeDesc :=
    List.sorted_insertionSort _ _
  have heM : Entry.mk f none c ∈ dir.filter (fun e => matchesBackupPattern e.name) :=
    List.mem_filter.mpr ⟨hmem, hmatch⟩
  have h1 : ((0 : ℚ), f) ∈ _get_sorted_backups dir :=
    hperm.mem_iff.mpr (List.mem_map_of_mem entryPair heM)
  have huniq : ∀ p ∈ _get_sorted_backups dir, p.2 = f → p = ((0 : ℚ), f) := by
    intro p hp hpf
    obtain ⟨e, heM', hpe⟩ := List.mem_map.mp (hperm.mem_iff.mp hp)
    have hname : e.name = Entry.name (Entry.mk f none c) := by
      show e.name = f
      rw [← hpf, ← hpe]
      rfl
    have he0 : e = Entry.mk f none c :=
      List.inj_on_of_nodup_map hnodup (List.mem_of_mem_filter heM') hmem hname
    rw [← hpe, he0]
    rfl
  have hstrict : ∀ p ∈ _get_sorted_backups dir, p ≠ ((0 : ℚ), f) → (0 : ℚ) < p.1 := by
    intro p hp hne
    obtain ⟨e, heM', hpe⟩ := List.mem_map.mp (hperm.mem_iff.mp hp)
    have hem := List.mem_filter.mp heM'
    by_cases hef : e.name = f
    · exact absurd (huniq p hp (by rw [← hpe]; exact hef)) hne
    · obtain ⟨q, hq, hqpos⟩ := hothers e hem.1 hem.2 hef
      have : p.1 = q := by rw [← hpe]; show e.mtime.getD 0 = q; rw [hq]; rfl
      rw [this]
      exact hqpos
  have h2 : (_get_sorted_backups dir).getLast? = some ((0 : ℚ), f) :=
    getLast_eq_of_strict_min _ _ hsort h1 hstrict
  refine ⟨h1, h2, ?_⟩
  intro K hK hKM
  have hlen : (_get_sorted_backups dir).length
      = (dir.filter (fun e => matchesBackupPattern e.name)).length := by
    rw [hperm.length_eq, List.length_map]
  have hdropne : (_get_sorted_backups dir).drop K.toNat ≠ [] := by
    rw [ne_eq, List.drop_eq_nil_iff]
    rw [hlen]
    omega
  have h3 : ((_get_sorted_backups dir).drop K.toNat).getLast? = some ((0 : ℚ), f) := by
    rw [← List.getLast?_append_of_ne_nil ((_get_sorted_backups dir).take K.toNat) hdropne,
      List.take_append_drop]
    exact h2
  exact List.mem_of_getLast?_eq_some h3

/-- Concrete backup directory (one file with unreadable mtime, one readable)
for the C10 witness. -/
def rotateDirC10 : List Entry :=
  [⟨"vs_data_backup_20250104_000000.tar.zst", none, 7⟩,
   ⟨"vs_data_backup_20250105_000000.tar.zst", some 2, 0⟩]

/-- Witness for C10: the theorem at a concrete two-file directory with
retention 1. -/
theorem unreadable_mtime_listed_last_removed_witness :
    matchesBackupPattern "vs_data_backup_20250104_000000.tar.zst" = true
    ∧ Entry.mk "vs_data_backup_20250104_000000.tar.zst" none 7 ∈ rotateDirC10
    ∧ (rotateDirC10.map Entry.name).Nodup
    ∧ (((0 : ℚ), "vs_data_backup_20250104_000000.tar.zst") ∈ _get_sorted_backups rotateDirC10
      ∧ (_get_sorted_backups rotateDirC10).getLast?
          = some (0, "vs_data_backup_20250104_000000.tar.zst")
      ∧ ∀ K : Int, 0 < K →
          (K : Int) < ((rotateDirC10.filter
              (fun e => matchesBackupPattern e.name)).length : Int) →
          ((0 : ℚ), "vs_data_backup_20250104_000000.tar.zst")
            ∈ (_get_sorted_backups rotateDirC10).drop K.toNat) :=
  ⟨by decide, by decide, by decide,
   unreadable_mtime_listed_last_removed rotateDirC10
     "vs_data_backup_20250104_000000.tar.zst" 7 (by decide) (by decide) (by decide)
     (by
       intro e he hm hne
       rcases List.mem_cons.mp he with rfl | he2
       · exact absurd rfl hne
       · rcases List.mem_cons.mp he2 with rfl | he3
         · exact ⟨2, rfl, by norm_num⟩
         · cases he3)⟩

end VsMgr.Backup

/-! ## Legacy update orchestrator (`src/updater.py`, `UpdateManager`) -/

namespace VsMgr.Updater

/-- Session state of one legacy `UpdateManager` (src/updater.py lines 63-65
plus the two filesystem facts its `cleanup` consults): the
`server_stopped` flag, the `archive_name` string, whether the temp
directory `/tmp/vs_update` exists, and whether a file
`/tmp/<archive_name>` exists. -/
structure SessionState where
  server_stopped : Bool
  archive_name : String
  tempDirExists : Bool
  tmpArchiveExists : Bool
deriving DecidableEq

/-- External-action outcomes for one real (non-dry-run) `perform_update`
run, in program order. -/
structure Oracle where
  serviceExists : Bool
  urlOk : Bool
  stopCmdOk : Bool
  backupOk : Bool
  backupPath : String
  downloadOk : Bool
  extractOk : Bool
  serverDirValid : Bool
  rsyncAvailable : Bool
  rsyncOk : Bool
  fallbackConfirm : Bool
  moveOk : Bool
  copyOk : Bool
  startCmdOk : Bool
  statusOk : Bool
  versionOk : Bool

/-- Externally visible commands the orchestrator can issue. -/
inductive Action where
  | stopCmd
  | rsyncRun
  | fallbackMove
  | fallbackCopy
  | startCmd
  | statusWarn
  | versionWarn
deriving DecidableEq

/-- Overall outcome of `perform_update`: a normal return of
`(success, backup_file)` or a `BackupError` propagating out of
`_handle_backup` (legacy `perform_update` has no try/except). -/
inductive UpdateResult where
  | finished (success : Bool) (backup : Option String)
  | raisedBackupError
deriving DecidableEq

/-- `UpdateManager._verify_service_and_url` (lines 147-219): service must
exist and the HEAD request must return 200 without an exception. -/
def _verify_service_and_url (o : Oracle) : Bool :=
  o.serviceExists && o.urlOk

/-- `UpdateManager._handle_backup` (lines 254-310): skipping yields the
empty string; otherwise `create_backup` returns the path on success,
returns `None` (empty string here) on ignored failure, and raises
`BackupError` on a non-ignored failure. -/
def _handle_backup (skipBackup ignoreBackupFailure : Bool) (o : Oracle) :
    Except Unit String :=
  if skipBackup then .ok ""
  else if o.backupOk then .ok o.backupPath
  else if ignoreBackupFailure then .ok ""
  else .error ()

/-- `UpdateManager._download_and_extract_files` (lines 312-342): download,
extract, then the `SERVER_DIR` sanity check. -/
def _download_and_extract_files (o : Oracle) : Bool :=
  o.downloadOk && o.extractOk && o.serverDirValid

/-- `UpdateManager._update_with_fallback` (lines 539-727, via
`_move_files_to_backup` and `_copy_new_files`): the operator confirmation,
then the evacuate phase, then the install phase.  (The directory-level
semantics of the two phases is modelled separately in `FallbackSync`.) -/
def _update_with_fallback (o : Oracle) : Bool × List Action :=
  if !o.fallbackConfirm then (false, [])
  else if !o.moveOk then (false, [.fallbackMove])
  else if !o.copyOk then (false, [.fallbackMove, .fallbackCopy])
  else (true, [.fallbackMove, .fallbackCopy])

/-- `UpdateManager._update_server_files` (lines 482-537): when rsync is
available it is run once; a non-zero exit only prints an error and returns
`False` — nothing else is executed, in particular no fallback and no
mutation of the target.  The fallback runs only when rsync is
unavailable. -/
def _update_server_files (o : Oracle) : Bool × List Action :=
  if o.rsyncAvailable then (o.rsyncOk, [.rsyncRun])
  else _update_with_fallback o

/-- `UpdateManager.perform_update` (src/updater.py lines 67-120) for a real
run (`dry_run = False`), with its helpers in program order.  The
`server_stopped` flag is set to `True` only after `run_systemctl("stop", …)`
reported success (lines 231-249) — a failed stop command returns `False`
with the flag still clear — and cleared only after
`run_systemctl("start", …)` reported success (line 771); the post-start
status and version checks merely print warnings (lines 776-800). -/
def perform_update (v : String) (skipBackup ignoreBackupFailure : Bool)
    (tempDirExists₀ tmpArchiveExists₀ : Bool) (o : Oracle) :
    SessionState × List Action × UpdateResult :=
  let archiveName := "vs_server_linux-x64_" ++ v ++ ".tar.gz"
  let st0 : SessionState := ⟨false, archiveName, tempDirExists₀, tmpArchiveExists₀⟩
  if !(_verify_service_and_url o) then (st0, [], .finished false none)
  else if !o.stopCmdOk then (st0, [.stopCmd], .finished false none)
  else
    let st1 : SessionState := { st0 with server_stopped := true }
    match _handle_backup skipBackup ignoreBackupFailure o with
    | .error _ => (st1, [.stopCmd], .raisedBackupError)
    | .ok backupFile =>
      let st2 : SessionState := { st1 with tempDirExists := true }
      if !(_download_and_extract_files o) then (st2, [.stopCmd], .finished false none)
      else
        match _update_server_files o with
        | (false, uacts) => (st2, .stopCmd :: uacts, .finished false none)
        | (true, uacts) =>
          if !o.startCmdOk then
            (st2, .stopCmd :: uacts ++ [.startCmd], .finished false none)
          else
            let st3 : SessionState := { st2 with server_stopped := false }
            (st3,
             .stopCmd :: uacts ++ [.startCmd]
               ++ (if o.statusOk then [] else [.statusWarn])
               ++ (if o.versionOk then [] else [.versionWarn]),
             .finished true (if backupFile = "" then none else some backupFile))

/-- Whether a result is full success. -/
def UpdateResult.isSuccess : UpdateResult → Bool
  | .finished true _ => true
  | _ => false

/-- Outcomes of the external actions `cleanup` can take. -/
structure CleanupOracle where
  rmtreeOk : Bool
  removeOk : Bool
  serviceActive : Bool
  svcExists : Bool
  startOk : Bool
deriving DecidableEq

/-- Actions `cleanup` can take. -/
inductive CAction where
  | rmTempDir
  | rmArchive
  | startCmd
deriving DecidableEq

/-- Result of one `cleanup` call: the state afterwards, the actions taken,
and whether the call returned normally (`ok = false` models the one
unguarded `os.remove` raising out of `cleanup`). -/
structure CleanupResult where
  state : SessionState
  actions : List CAction
  ok : Bool
deriving DecidableEq

/-- The restart attempt at the end of `cleanup` (src/updater.py lines
868-910): only when `server_stopped` is still set, the service is not
active, and the unit exists is `run_systemctl("start", …)` issued; its own
failure and any exception are caught and logged. -/
def cleanupRestartActs (o : CleanupOracle) (st : SessionState) : List CAction :=
  if st.server_stopped && !o.serviceActive && o.svcExists then [.startCmd]
  else []

/-- State after the first `cleanup` step, the removal of the temp
directory by `rmtree(ignore_errors=True)`: a failure (`rmtreeOk = false`)
silently leaves the directory in place. -/
def cleanupTempState (dryRun : Bool) (o : CleanupOracle) (st : SessionState) :
    SessionState :=
  if st.tempDirExists && !dryRun && o.rmtreeOk then
    { st with tempDirExists := false }
  else st

/-- The `rmtree` attempt on the temp directory (executed exactly when the
directory exists and the run is not dry). -/
def cleanupTempActs (dryRun : Bool) (st : SessionState) : List CAction :=
  if st.tempDirExists && !dryRun then [.rmTempDir] else []

/-- `UpdateManager.cleanup` (src/updater.py lines 832-911); the monolithic
CLI's `cleanup` (src/main.py lines 382-456) has the same structure.
Temp-directory removal uses `rmtree(ignore_errors=True)`, so its failure is
silent; the downloaded-archive removal is a bare `os.remove` whose failure
propagates out of `cleanup` (`ok = false`, skipping the restart attempt);
the restart attempt itself never propagates.  The `server_stopped` flag is
never modified by `cleanup`.  Under dry run the removals are only printed;
`run_systemctl` in dry run also only prints, the emitted `startCmd` marking
the attempt. -/
def cleanup (dryRun : Bool) (o : CleanupOracle) (st : SessionState) :
    CleanupResult :=
  if decide (st.archive_name ≠ "")
      && (cleanupTempState dryRun o st).tmpArchiveExists && !dryRun then
    if o.removeOk then
      ⟨{ cleanupTempState dryRun o st with tmpArchiveExists := false },
       cleanupTempActs dryRun st ++ [.rmArchive]
         ++ cleanupRestartActs o
             { cleanupTempState dryRun o st with tmpArchiveExists := false },
       true⟩
    else
      ⟨cleanupTempState dryRun o st, cleanupTempActs dryRun st ++ [.rmArchive],
       false⟩
  else
    ⟨cleanupTempState dryRun o st,
     cleanupTempActs dryRun st
       ++ cleanupRestartActs o (cleanupTempState dryRun o st),
     true⟩

end VsMgr.Updater

/-! ## Refactored update orchestrator (`src/src/vs_mgr/updater.py`) -/

namespace VsMgr.VsmUpdater

/-- `ServiceManager.get_service_status` results as
`_verify_service_and_url` distinguishes them. -/
inductive SvcStatus where
  | running
  | stopped
  | notFound
  | err
deriving DecidableEq

/-- External-action outcomes for one real (non-dry-run) vs_mgr
`perform_update` run, in program order. -/
structure Oracle where
  serviceStatus : SvcStatus
  urlOk : Bool
  stopCmdOk : Bool
  backupOk : Bool
  backupPath : String
  ensureTempOk : Bool
  downloadOk : Bool
  extractOk : Bool
  extractedDirOk : Bool
  rsyncAvailable : Bool
  rsyncOk : Bool
  fallbackOk : Bool
  startCmdOk : Bool
  waitActiveOk : Bool
  reportedVersion : Option String

/-- Externally visible commands of the vs_mgr orchestrator. -/
inductive Action where
  | stopCmd
  | rsyncRun
  | fallbackRun
  | startCmd
  | versionProbe
deriving DecidableEq

/-- Outcome of one vs_mgr `perform_update` run: the returned success flag
and backup path, the final `server_stopped` flag, and the actions taken. -/
structure RunResult where
  success : Bool
  backup : Option String
  server_stopped : Bool
  actions : List Action
deriving DecidableEq

/-- `UpdateManager._update_server_files` (src/src/vs_mgr/updater.py lines
497-538): rsync (when available) is tried first; a failed rsync is caught
with a warning — `"rsync update failed: …. Attempting fallback..."` — and
the Python fallback (`_update_with_fallback`, an rsync-mimicking
copy-and-delete pass abstracted here to its success flag) runs afterwards;
only a fallback failure raises `UpdateError`. -/
def _update_server_files (o : Oracle) : Bool × List Action :=
  if o.rsyncAvailable then
    if o.rsyncOk then (true, [.rsyncRun])
    else (o.fallbackOk, [.rsyncRun, .fallbackRun])
  else (o.fallbackOk, [.fallbackRun])

/-- `UpdateManager.perform_update` (src/src/vs_mgr/updater.py lines
125-216) for a real run: the steps run in a `try` block; every raised
error (ServiceError, BackupError, DownloadError, UpdateError,
VersioningError, …) is caught and yields `success = False`.
`_stop_server` (lines 315-339) sets `server_stopped := True` only after
`run_systemctl_action("stop", …)` returned without raising (the post-stop
active check only warns); `_start_and_verify_server` (lines 803-865)
clears it only after the start command succeeded and the service became
active, and then raises `VersioningError` when the probed version is
missing or differs from the target, which fails the run. -/
def perform_update (expected : String)
    (skipBackup ignoreBackupFailure : Bool) (o : Oracle) : RunResult :=
  if o.serviceStatus = .notFound || o.serviceStatus = .err then
    ⟨false, none, false, []⟩
  else if !o.urlOk then ⟨false, none, false, []⟩
  else if !o.stopCmdOk then ⟨false, none, false, [.stopCmd]⟩
  else if !skipBackup && !o.backupOk && !ignoreBackupFailure then
    ⟨false, none, true, [.stopCmd]⟩
  else
    let backup : Option String :=
      if skipBackup then none
      else if o.backupOk then some o.backupPath
      else none
    if !o.ensureTempOk then ⟨false, backup, true, [.stopCmd]⟩
    else if !o.downloadOk then ⟨false, backup, true, [.stopCmd]⟩
    else if !(o.extractOk && o.extractedDirOk) then
      ⟨false, backup, true, [.stopCmd]⟩
    else
      match _update_server_files o with
      | (false, uacts) => ⟨false, backup, true, .stopCmd :: uacts⟩
      | (true, uacts) =>
        if !o.startCmdOk then
          ⟨false, backup, true, .stopCmd :: uacts ++ [.startCmd]⟩
        else if !o.waitActiveOk then
          ⟨false, backup, true, .stopCmd :: uacts ++ [.startCmd]⟩
        else
          let acts := .stopCmd :: uacts ++ [.startCmd, .versionProbe]
          match o.reportedVersion with
          | none => ⟨false, backup, false, acts⟩
          | some cur =>
            match Versioning.compare_versions cur expected with
            | .ok 0 => ⟨true, backup, false, acts⟩
            | _ => ⟨false, backup, false, acts⟩

end VsMgr.VsmUpdater


namespace VsMgr.Updater

theorem cleanupTempState_stopped (dr : Bool) (o : CleanupOracle)
    (st : SessionState) :
    (cleanupTempState dr o st).server_stopped = st.server_stopped := by
  unfold cleanupTempState
  split <;> rfl

theorem cleanupTempState_tmpArchive (dr : Bool) (o : CleanupOracle)
    (st : SessionState) :
    (cleanupTempState dr o st).tmpArchiveExists = st.tmpArchiveExists := by
  unfold cleanupTempState
  split <;> rfl

theorem cleanupTempState_name (dr : Bool) (o : CleanupOracle)
    (st : SessionState) :
    (cleanupTempState dr o st).archive_name = st.archive_name := by
  unfold cleanupTempState
  split <;> rfl

theorem cleanup_preserves_stopped (dr : Bool) (o : CleanupOracle)
    (st : SessionState) :
    (cleanup dr o st).state.server_stopped = st.server_stopped := by
  unfold cleanup
  split
  · split
    · exact cleanupTempState_stopped dr o st
    · exact cleanupTempState_stopped dr o st
  · exact cleanupTempState_stopped dr o st

theorem cleanup_restarts_when_stopped (dr : Bool) (co : CleanupOracle)
    (st : SessionState) (hst : st.server_stopped = true)
    (hA : co.serviceActive = false) (hE : co.svcExists = true)
    (hR : co.removeOk = true) :
    CAction.startCmd ∈ (cleanup dr co st).actions := by
  have h1 : (cleanupTempState dr co st).server_stopped = true := by
    rw [cleanupTempState_stopped]
    exact hst
  have h1x : ({ cleanupTempState dr co st with
      tmpArchiveExists := false } : SessionState).server_stopped = true := h1
  have hacts : ∀ st' : SessionState, st'.server_stopped = true →
      cleanupRestartActs co st' = [CAction.startCmd] := by
    intro st' h
    unfold cleanupRestartActs
    rw [h, hA, hE]
    rfl
  unfold cleanup
  split
  · rw [hacts _ h1x]
    simp
  · rw [hacts _ h1]
    simp

end VsMgr.Updater

namespace VsMgr.Updater

theorem cleanup_no_start_when_cleared (dr : Bool) (o : CleanupOracle)
    (st : SessionState) (hst : st.server_stopped = false) :
    CAction.startCmd ∉ (cleanup dr o st).actions := by
  have h1 : (cleanupTempState dr o st).server_stopped = false := by
    rw [cleanupTempState_stopped]
    exact hst
  have h1x : ({ cleanupTempState dr o st with
      tmpArchiveExists := false } : SessionState).server_stopped = false := h1
  have hacts : ∀ st' : SessionState, st'.server_stopped = false →
      cleanupRestartActs o st' = [] := by
    intro st' h
    unfold cleanupRestartActs
    rw [h]
    rfl
  have htmp : CAction.startCmd ∉ cleanupTempActs dr st := by
    unfold cleanupTempActs
    split <;> simp
  unfold cleanup
  split
  · split
    · rw [hacts _ h1x]
      simp [htmp]
    · simp [htmp]
  · rw [hacts _ h1]
    simp [htmp]

theorem cleanup_state_cases (dr : Bool) (o : CleanupOracle) (st : SessionState) :
    ((cleanup dr o st).state.tmpArchiveExists = false)
    ∨ ((cleanup dr o st).state.archive_name = st.archive_name
        ∧ (cleanup dr o st).state.tmpArchiveExists = st.tmpArchiveExists
        ∧ (decide (st.archive_name ≠ "") && st.tmpArchiveExists && !dr) = false)
    ∨ (cleanup dr o st).ok = false := by
  unfold cleanup
  split
  · split
    · left
      rfl
    · right
      right
      rfl
  · next hng =>
    right
    left
    refine ⟨cleanupTempState_name dr o st, cleanupTempState_tmpArchive dr o st, ?_⟩
    cases hb : (decide (st.archive_name ≠ "")
        && (cleanupTempState dr o st).tmpArchiveExists && !dr) with
    | false =>
      rw [← cleanupTempState_tmpArchive dr o st]
      exact hb
    | true => exact absurd hb hng

theorem cleanup_ok_of_no_archive (dr : Bool) (o : CleanupOracle)
    (st' : SessionState)
    (hg : (decide (st'.archive_name ≠ "") && st'.tmpArchiveExists && !dr)
        = false) :
    (cleanup dr o st').ok = true := by
  unfold cleanup
  rw [cleanupTempState_tmpArchive dr o st', hg]
  simp

theorem cleanup_twice_ok (dr : Bool) (o₁ o₂ : CleanupOracle) (st : SessionState)
    (h : (cleanup dr o₁ st).ok = true) :
    (cleanup dr o₂ (cleanup dr o₁ st).state).ok = true := by
  rcases cleanup_state_cases dr o₁ st with hc | hc | hc
  · apply cleanup_ok_of_no_archive
    rw [hc]
    simp
  · apply cleanup_ok_of_no_archive
    rw [hc.1, hc.2.1]
    exact hc.2.2
  · rw [hc] at h
    cases h

end VsMgr.Updater

/-- C8 (amended): legacy cleanup is idempotent *given that the first call
returned without error*: a second call on the resulting session state then
also returns without error, whatever the second call's action outcomes
are; and once `server_stopped` has been cleared, neither call issues a
service start command (`cleanup` itself never modifies the flag).  The
error-on-first-call proviso is forced by the counterexample: the one raise
point, the unguarded `os.remove` of the downloaded archive, leaves the
file in place when it fails, so a second call whose removal also fails
raises again. -/
theorem VsMgr.Updater.cleanup_idempotent_no_duplicate_restart
    (dryRun : Bool) (o₁ o₂ : VsMgr.Updater.CleanupOracle)
    (st : VsMgr.Updater.SessionState)
    (h : (VsMgr.Updater.cleanup dryRun o₁ st).ok = true) :
    (VsMgr.Updater.cleanup dryRun o₂
        (VsMgr.Updater.cleanup dryRun o₁ st).state).ok = true
    ∧ (st.server_stopped = false →
        VsMgr.Updater.CAction.startCmd
            ∉ (VsMgr.Updater.cleanup dryRun o₁ st).actions
        ∧ VsMgr.Updater.CAction.startCmd
            ∉ (VsMgr.Updater.cleanup dryRun o₂
                (VsMgr.Updater.cleanup dryRun o₁ st).state).actions) := by
  refine ⟨VsMgr.Updater.cleanup_twice_ok dryRun o₁ o₂ st h, ?_⟩
  intro hstop
  refine ⟨VsMgr.Updater.cleanup_no_start_when_cleared dryRun o₁ st hstop, ?_⟩
  apply VsMgr.Updater.cleanup_no_start_when_cleared
  rw [VsMgr.Updater.cleanup_preserves_stopped]
  exact hstop

/-- Concrete session state for the C8 witness: flag cleared, archive and
temp directory still present. -/
def cleanupStC8 : VsMgr.Updater.SessionState :=
  ⟨false, "vs_server_linux-x64_1.19.5.tar.gz", true, true⟩

/-- Concrete first-call outcomes for the C8 witness. -/
def cleanupO1C8 : VsMgr.Updater.CleanupOracle :=
  ⟨true, true, false, true, true⟩

/-- Concrete second-call outcomes for the C8 witness (removal would fail,
but nothing is left to remove). -/
def cleanupO2C8 : VsMgr.Updater.CleanupOracle :=
  ⟨false, false, false, true, true⟩

/-- Witness for C8: the idempotence theorem at a concrete state and pair of
oracles. -/
theorem cleanup_idempotent_witness :
    (VsMgr.Updater.cleanup false cleanupO1C8 cleanupStC8).ok = true
    ∧ ((VsMgr.Updater.cleanup false cleanupO2C8
          (VsMgr.Updater.cleanup false cleanupO1C8 cleanupStC8).state).ok = true
      ∧ (cleanupStC8.server_stopped = false →
          VsMgr.Updater.CAction.startCmd
              ∉ (VsMgr.Updater.cleanup false cleanupO1C8 cleanupStC8).actions
          ∧ VsMgr.Updater.CAction.startCmd
              ∉ (VsMgr.Updater.cleanup false cleanupO2C8
                  (VsMgr.Updater.cleanup false cleanupO1C8 cleanupStC8).state).actions)) :=
  ⟨by decide,
   VsMgr.Updater.cleanup_idempotent_no_duplicate_restart false
     cleanupO1C8 cleanupO2C8 cleanupStC8 (by decide)⟩

/-- C8 counterexample: the claim as stated is unconditional ("for every
session state, calling cleanup twice in sequence produces no error on the
second call"), but with the downloaded archive present and the unguarded
`os.remove` (src/updater.py lines 854-861; src/main.py lines 403-409)
failing on both calls, the first call raises out of the archive-removal
step leaving the file in place, and the identically failing second call in
the sequence raises again. -/
theorem cleanup_twice_errors_when_remove_fails :
    (VsMgr.Updater.cleanup false ⟨true, false, false, true, true⟩
        ⟨false, "vs_server_linux-x64_1.19.5.tar.gz", false, true⟩).ok
      = false
    ∧ (VsMgr.Updater.cleanup false ⟨true, false, false, true, true⟩
        (VsMgr.Updater.cleanup false ⟨true, false, false, true, true⟩
          ⟨false, "vs_server_linux-x64_1.19.5.tar.gz", false,
           true⟩).state).ok = false :=
  ⟨by decide, by decide⟩

/-- Oracle for the C4 counterexample: preflight passes, the stop command is
issued but fails, every other outcome irrelevant. -/
def oracleC4bad : VsMgr.Updater.Oracle :=
  ⟨true, true, false, true, "", true, true, true, true, true, true, true,
   true, true, true, true⟩

/-- C4 counterexample: when the stop command itself fails, the legacy
updater leaves `server_stopped = false` — the flag is set only after the
stop command *succeeds*, not after it is issued — so the update fails with
the flag clear and cleanup (service inactive, unit existing) attempts no
restart, contradicting the claim's "including failure of the stop command
itself". -/
theorem stop_cmd_failure_leaves_flag_clear :
    VsMgr.Updater.Action.stopCmd
        ∈ (VsMgr.Updater.perform_update "1.19.5" false false false false
            oracleC4bad).2.1
    ∧ (VsMgr.Updater.perform_update "1.19.5" false false false false
        oracleC4bad).2.2 = .finished false none
    ∧ (VsMgr.Updater.perform_update "1.19.5" false false false false
        oracleC4bad).1.server_stopped = false
    ∧ VsMgr.Updater.CAction.startCmd
        ∉ (VsMgr.Updater.cleanup false ⟨true, true, false, true, true⟩
            (VsMgr.Updater.perform_update "1.19.5" false false false false
              oracleC4bad).1).actions := by
  refine ⟨by decide, rfl, rfl, by decide⟩


namespace VsMgr.VsmUpdater

/-- Filesystem facts the vs_mgr `_cleanup` consults: whether the
downloaded archive file and the extracted directory exist. -/
structure CleanupFS where
  archivePresent : Bool
  extractedPresent : Bool
deriving DecidableEq

/-- vs_mgr `UpdateManager._cleanup` (src/src/vs_mgr/updater.py lines
867-910): best-effort removal of the downloaded archive (when
`archive_name` is set and the file exists, succeeding when `removeOk`) and
of the extracted directory (when `_extracted_path` is set, is a directory,
and lies inside the temp directory, succeeding when `rmtreeOk`); every
failure is caught and logged, nothing propagates, and no service-manager
call of any kind is made — the second component, the list of service
commands issued, is therefore always empty: unlike the legacy `cleanup`,
this one never attempts a restart. -/
def _cleanup (archiveNameSet removeOk rmtreeOk extractedPathSet
    extractedInsideTemp : Bool) (fs : CleanupFS) : CleanupFS × List Action :=
  ({ archivePresent :=
       if archiveNameSet && fs.archivePresent && removeOk then false
       else fs.archivePresent,
     extractedPresent :=
       if extractedPathSet && fs.extractedPresent && extractedInsideTemp
           && rmtreeOk then false
       else fs.extractedPresent },
   [])

theorem vsm_no_start_in_update_acts (o : Oracle) :
    Action.startCmd ∉ (_update_server_files o).2 := by
  unfold _update_server_files
  split
  · split <;> simp
  · simp

end VsMgr.VsmUpdater

/-- C4 (amended): both `_stop_server` implementations set `server_stopped`
immediately after the stop command *succeeds* — before any confirmation
that the service actually stopped (the legacy updater has no post-stop
check at all; vs_mgr checks afterwards but only warns) — not merely after
the command is issued, so a failed stop command leaves the flag `false`
(see the counterexample).  In the legacy updater, whenever preflight
passed and the stop command succeeded, every subsequent failure leaves
`server_stopped = true` and cleanup (reaching its restart step, with the
service inactive and the unit existing) attempts a restart.  In the vs_mgr
updater, after preflight and a successful stop the flag ends up `false`
exactly when the start step completed (the start command was issued and
succeeded and the service became active) — so every failure between stop
and a completed start leaves it `true`, while a post-start version-probe
failure leaves it `false` — and the vs_mgr cleanup issues no service
command at all, so it never attempts a restart whatever the flag says. -/
theorem flag_set_after_stop_success :
    (∀ (o : VsMgr.Updater.Oracle) (v : String) (skip ign t0 a0 : Bool),
      o.serviceExists = true → o.urlOk = true → o.stopCmdOk = true →
      (VsMgr.Updater.perform_update v skip ign t0 a0 o).2.2.isSuccess
        = false →
      (VsMgr.Updater.perform_update v skip ign t0 a0 o).1.server_stopped
        = true
      ∧ ∀ (dr : Bool) (co : VsMgr.Updater.CleanupOracle),
          co.serviceActive = false → co.svcExists = true →
          co.removeOk = true →
          VsMgr.Updater.CAction.startCmd
            ∈ (VsMgr.Updater.cleanup dr co
                (VsMgr.Updater.perform_update v skip ign t0 a0
                  o).1).actions)
    ∧ (∀ (exp : String) (skip ign : Bool) (o2 : VsMgr.VsmUpdater.Oracle),
        o2.serviceStatus ≠ .notFound → o2.serviceStatus ≠ .err →
        o2.urlOk = true → o2.stopCmdOk = true →
        ((VsMgr.VsmUpdater.perform_update exp skip ign o2).server_stopped
            = false
          ↔ (VsMgr.VsmUpdater.Action.startCmd
              ∈ (VsMgr.VsmUpdater.perform_update exp skip ign o2).actions
            ∧ o2.startCmdOk = true ∧ o2.waitActiveOk = true)))
    ∧ ∀ (ans rm rt eps eit : Bool) (fs : VsMgr.VsmUpdater.CleanupFS),
        (VsMgr.VsmUpdater._cleanup ans rm rt eps eit fs).2 = [] := by
  refine ⟨?_, ?_, ?_⟩
  · intro o v skip ign t0 a0 h1 h2 h3 hfail
    have hv : VsMgr.Updater._verify_service_and_url o = true := by
      unfold VsMgr.Updater._verify_service_and_url
      rw [h1, h2]
      rfl
    have hstop : (VsMgr.Updater.perform_update v skip ign t0 a0
        o).1.server_stopped = true := by
      unfold VsMgr.Updater.perform_update at hfail ⊢
      rw [hv, h3] at hfail ⊢
      cases hb : VsMgr.Updater._handle_backup skip ign o with
      | error e => rfl
      | ok bf =>
        cases hd : VsMgr.Updater._download_and_extract_files o with
        | false => rfl
        | true =>
          rcases hu : VsMgr.Updater._update_server_files o with ⟨ub, ua⟩
          cases ub with
          | false => rfl
          | true =>
            cases hs : o.startCmdOk with
            | false => rfl
            | true =>
              simp [hb, hd, hu, hs,
                VsMgr.Updater.UpdateResult.isSuccess] at hfail
    refine ⟨hstop, ?_⟩
    intro dr co hA hE hR
    exact VsMgr.Updater.cleanup_restarts_when_stopped dr co _ hstop hA hE hR
  · intro exp skip ign o2 hns herr hurl hstop
    have hnu : VsMgr.VsmUpdater.Action.startCmd
        ∉ (VsMgr.VsmUpdater._update_server_files o2).2 :=
      VsMgr.VsmUpdater.vsm_no_start_in_update_acts o2
    unfold VsMgr.VsmUpdater.perform_update
    rw [hurl, hstop]
    cases hsvc : (decide
        (o2.serviceStatus = VsMgr.VsmUpdater.SvcStatus.notFound)
        || decide (o2.serviceStatus = VsMgr.VsmUpdater.SvcStatus.err)) with
    | true =>
      rw [Bool.or_eq_true, decide_eq_true_eq, decide_eq_true_eq] at hsvc
      rcases hsvc with h | h
      · exact absurd h hns
      · exact absurd h herr
    | false =>
      repeat' split
      all_goals simp_all
  · intro ans rm rt eps eit fs
    rfl

/-- Oracle for the C4 witness, legacy half: preflight and stop succeed,
the download fails. -/
def oracleC4w : VsMgr.Updater.Oracle :=
  ⟨true, true, true, true, "", false, true, true, true, true, true, true,
   true, true, true, true⟩

/-- Oracle for the C4 witness, vs_mgr half: preflight and stop succeed,
the download fails. -/
def oracleC4vw : VsMgr.VsmUpdater.Oracle :=
  ⟨.running, true, true, true, "", true, false, true, true, true, true,
   true, true, true, some "1.19.5"⟩

/-- Witness for C4: the amended theorem at a concrete legacy run whose
download fails after a successful stop, at a concrete vs_mgr run of the
same shape, and at one vs_mgr cleanup call. -/
theorem flag_set_after_stop_success_witness :
    oracleC4w.serviceExists = true ∧ oracleC4w.urlOk = true
    ∧ oracleC4w.stopCmdOk = true
    ∧ (VsMgr.Updater.perform_update "1.19.5" false false false false
        oracleC4w).2.2.isSuccess = false
    ∧ (VsMgr.Updater.perform_update "1.19.5" false false false false
        oracleC4w).1.server_stopped = true
    ∧ VsMgr.Updater.CAction.startCmd
        ∈ (VsMgr.Updater.cleanup false ⟨true, true, false, true, true⟩
            (VsMgr.Updater.perform_update "1.19.5" false false false false
              oracleC4w).1).actions
    ∧ oracleC4vw.serviceStatus ≠ .notFound
    ∧ oracleC4vw.serviceStatus ≠ .err
    ∧ oracleC4vw.urlOk = true ∧ oracleC4vw.stopCmdOk = true
    ∧ ((VsMgr.VsmUpdater.perform_update "1.19.5" false false
          oracleC4vw).server_stopped = false
        ↔ (VsMgr.VsmUpdater.Action.startCmd
            ∈ (VsMgr.VsmUpdater.perform_update "1.19.5" false false
                oracleC4vw).actions
          ∧ oracleC4vw.startCmdOk = true ∧ oracleC4vw.waitActiveOk = true))
    ∧ (VsMgr.VsmUpdater._cleanup true true true true true
        ⟨true, true⟩).2 = [] :=
  ⟨rfl, rfl, rfl, rfl,
   (flag_set_after_stop_success.1 oracleC4w "1.19.5" false false false
      false rfl rfl rfl rfl).1,
   (flag_set_after_stop_success.1 oracleC4w "1.19.5" false false false
      false rfl rfl rfl rfl).2 false ⟨true, true, false, true, true⟩
     rfl rfl rfl,
   by decide, by decide, rfl, rfl,
   flag_set_after_stop_success.2.1 "1.19.5" false false oracleC4vw
     (by decide) (by decide) rfl rfl,
   flag_set_after_stop_success.2.2 true true true true true ⟨true, true⟩⟩


/-- C2 counterexample: in the vs_mgr updater a failed mirror (rsync)
attempt does not fail the sync step — the Python fallback is invoked right
after the failed attempt, and here the whole update then completes
successfully — contradicting "the sync step fails the whole update" and
"the fallback sync is never invoked after the failed mirror attempt". -/
theorem vsm_failed_mirror_invokes_fallback :
    (VsMgr.VsmUpdater.perform_update "1.19.5" true false
        ⟨.running, true, true, true, "", true, true, true, true,
         true, false, true, true, true, some "1.19.5"⟩).success = true
    ∧ VsMgr.VsmUpdater.Action.fallbackRun
        ∈ (VsMgr.VsmUpdater.perform_update "1.19.5" true false
            ⟨.running, true, true, true, "", true, true, true, true,
             true, false, true, true, true, some "1.19.5"⟩).actions := by
  refine ⟨rfl, by decide⟩

/-- C2 (amended): the two updaters behave differently after a failed
mirror attempt.  In the legacy updater (src/updater.py) a non-zero rsync
exit is fatal: the one and only sync action is the rsync run itself — no
fallback is invoked and no cleanup of the target is attempted — and the
whole update fails whatever the other step outcomes are.  In the vs_mgr
updater (src/src/vs_mgr/updater.py) the failed rsync attempt is caught and
the Python fallback is invoked right after it, the fallback's outcome
deciding the sync step. -/
theorem mirror_failure_fatal_legacy_fallback_vsm :
    (∀ o : VsMgr.Updater.Oracle, o.rsyncAvailable = true → o.rsyncOk = false →
      VsMgr.Updater._update_server_files o = (false, [.rsyncRun])
      ∧ ∀ (v : String) (skip ign t0 a0 : Bool),
          (VsMgr.Updater.perform_update v skip ign t0 a0
            o).2.2.isSuccess = false)
    ∧ ∀ o2 : VsMgr.VsmUpdater.Oracle, o2.rsyncAvailable = true →
        o2.rsyncOk = false →
        VsMgr.VsmUpdater._update_server_files o2
          = (o2.fallbackOk, [.rsyncRun, .fallbackRun]) := by
  constructor
  · intro o ha hb
    have hu : VsMgr.Updater._update_server_files o = (false, [.rsyncRun]) := by
      unfold VsMgr.Updater._update_server_files
      rw [ha, hb]
      simp
    refine ⟨hu, ?_⟩
    intro v skip ign t0 a0
    unfold VsMgr.Updater.perform_update
    cases hv : VsMgr.Updater._verify_service_and_url o with
    | false => rfl
    | true =>
      cases hs : o.stopCmdOk with
      | false => rfl
      | true =>
        cases hback : VsMgr.Updater._handle_backup skip ign o with
        | error e => rfl
        | ok bf =>
          cases hd : VsMgr.Updater._download_and_extract_files o with
          | false => rfl
          | true =>
            rw [hu]
            rfl
  · intro o2 ha hb
    unfold VsMgr.VsmUpdater._update_server_files
    rw [ha, hb]
    simp

/-- Legacy oracle for the C2 witness: mirror available but exiting
non-zero; every other outcome succeeds. -/
def oracleC2w : VsMgr.Updater.Oracle :=
  ⟨true, true, true, true, "", true, true, true, true, false, true, true,
   true, true, true, true⟩

/-- vs_mgr oracle for the C2 witness: mirror available but failing,
fallback succeeding. -/
def oracleC2vw : VsMgr.VsmUpdater.Oracle :=
  ⟨.running, true, true, true, "", true, true, true, true, true, false,
   true, true, true, some "1.19.5"⟩

/-- Witness for C2: the amended theorem at concrete oracles on both
updaters. -/
theorem mirror_failure_witness :
    oracleC2w.rsyncAvailable = true ∧ oracleC2w.rsyncOk = false
    ∧ VsMgr.Updater._update_server_files oracleC2w = (false, [.rsyncRun])
    ∧ (VsMgr.Updater.perform_update "1.19.5" false false false false
        oracleC2w).2.2.isSuccess = false
    ∧ oracleC2vw.rsyncAvailable = true ∧ oracleC2vw.rsyncOk = false
    ∧ VsMgr.VsmUpdater._update_server_files oracleC2vw
        = (oracleC2vw.fallbackOk, [.rsyncRun, .fallbackRun]) :=
  ⟨rfl, rfl,
   (mirror_failure_fatal_legacy_fallback_vsm.1 oracleC2w rfl rfl).1,
   (mirror_failure_fatal_legacy_fallback_vsm.1 oracleC2w rfl rfl).2
     "1.19.5" false false false false,
   rfl, rfl,
   mirror_failure_fatal_legacy_fallback_vsm.2 oracleC2vw rfl rfl⟩

/-- C5 counterexample: in the vs_mgr updater, a successful start followed
by a version probe reporting "1.19.4" against target "1.19.5" raises
`VersioningError`, so `perform_update` returns `false` — not `true` as the
claim states — even though the server was started (the flag is already
cleared). -/
theorem vsm_version_mismatch_fails_update :
    (VsMgr.VsmUpdater.perform_update "1.19.5" true false
        ⟨.running, true, true, true, "", true, true, true, true,
         true, true, true, true, true, some "1.19.4"⟩).success = false
    ∧ (VsMgr.VsmUpdater.perform_update "1.19.5" true false
        ⟨.running, true, true, true, "", true, true, true, true,
         true, true, true, true, true, some "1.19.4"⟩).server_stopped
      = false :=
  ⟨rfl, rfl⟩

/-- C5 (amended): a version mismatch after a successful post-sync start is
only a warning in the legacy updater — `perform_update` still returns
success and emits the warning — whereas the vs_mgr updater raises
`VersioningError` on any probe outcome other than an exact match, so its
`perform_update` returns `false` even though the start succeeded. -/
theorem version_mismatch_warning_legacy_fatal_vsm :
    (∀ (v bp : String) (statusOk t0 a0 : Bool),
      (VsMgr.Updater.perform_update v true false t0 a0
          ⟨true, true, true, true, bp, true, true, true, true, true, true,
           true, true, true, statusOk, false⟩).2.2
        = .finished true none
      ∧ VsMgr.Updater.Action.versionWarn
          ∈ (VsMgr.Updater.perform_update v true false t0 a0
              ⟨true, true, true, true, bp, true, true, true, true, true, true,
               true, true, true, statusOk, false⟩).2.1)
    ∧ ∀ (exp cur : String) (skip ign : Bool)
        (o2 : VsMgr.VsmUpdater.Oracle),
        o2.reportedVersion = some cur →
        VsMgr.Versioning.compare_versions cur exp ≠ .ok 0 →
        (VsMgr.VsmUpdater.perform_update exp skip ign o2).success = false := by
  constructor
  · intro v bp statusOk t0 a0
    refine ⟨rfl, ?_⟩
    cases statusOk <;> simp [VsMgr.Updater.perform_update,
      VsMgr.Updater._verify_service_and_url, VsMgr.Updater._handle_backup,
      VsMgr.Updater._download_and_extract_files,
      VsMgr.Updater._update_server_files]
  · intro exp cur skip ign o2 hrep hne
    unfold VsMgr.VsmUpdater.perform_update
    rw [hrep]
    repeat' split
    all_goals first
      | rfl
      | simp_all

/-- vs_mgr oracle for the C5 witness: everything succeeds, the probe
reports "1.2.3" while the target is "1.2.4". -/
def oracleC5w : VsMgr.VsmUpdater.Oracle :=
  ⟨.running, true, true, true, "", true, true, true, true, true, true,
   true, true, true, some "1.2.3"⟩

/-- Witness for C5: the amended theorem's vs_mgr half at a concrete
mismatching probe. -/
theorem version_mismatch_witness :
    oracleC5w.reportedVersion = some "1.2.3"
    ∧ VsMgr.Versioning.compare_versions "1.2.3" "1.2.4" ≠ .ok 0
    ∧ (VsMgr.VsmUpdater.perform_update "1.2.4" false false
        oracleC5w).success = false :=
  ⟨rfl,
   fun h => absurd (Except.ok.inj h) (by decide),
   version_mismatch_warning_legacy_fatal_vsm.2 "1.2.4" "1.2.3" false false
     oracleC5w rfl (fun h => absurd (Except.ok.inj h) (by decide))⟩

/-! ## Fallback sync directory semantics (`src/updater.py`,
`_move_files_to_backup` / `_copy_new_files`) -/

namespace VsMgr.FallbackSync

/-- The live server directory during a fallback sync: its ordinary
top-level entries (name, abstract contents) and, when it exists, the
timestamped side directory of evacuated entries (exactly one is created
per fallback invocation; its name `.old_update_files_<ts>` carries the
skip marker, so the move loop skips it when it shows up in the
listing). -/
structure ServerDir where
  entries : List (String × Nat)
  side : Option (String × List (String × Nat))
deriving DecidableEq

/-- Names never evacuated — the `preserve_paths` of
`_move_files_to_backup`: `serverconfig.json`, `Mods`, `modconfig`.  The
source tests `os.path.samefile(item_path, path)` when the preserved path
exists and compares basenames otherwise; for top-level entries of the same
directory both reduce to name equality. -/
def isPreserved (name : String) : Bool :=
  name = "serverconfig.json" || name = "Mods" || name = "modconfig"

/-- The side directory name `.old_update_files_<timestamp>`. -/
def oldFilesDirName (ts : String) : String :=
  ".old_update_files_" ++ ts

/-- `item.startswith(".old_update_files_")`, the skip test for previous
(and the fresh) side directories. -/
def hasOldMarker (name : String) : Bool :=
  isPrefixChars (".old_update_files_" : String).data name.data

/-- `UpdateManager._move_files_to_backup` (src/updater.py lines 589-646),
success path: create the timestamped side directory, then move every
listed top-level entry that neither carries the `.old_update_files_`
marker nor is preserved into it, in listing order.  (A failing move aborts
with the side directory removed — the failure path is modelled by the
success flag in `Updater._update_with_fallback`; this is the
directory-level semantics when every move succeeds.) -/
def _move_files_to_backup (ts : String) (d : ServerDir) : ServerDir :=
  { entries := d.entries.filter
      (fun e => hasOldMarker e.1 || isPreserved e.1),
    side := some (oldFilesDirName ts,
      d.entries.filter (fun e => !(hasOldMarker e.1 || isPreserved e.1))) }

/-- Copying one source entry into the server directory: any same-named
destination is removed first (`rmtree` then `copytree` for directories,
file overwrite otherwise — both replace the destination). -/
def copyOne (d : ServerDir) (e : String × Nat) : ServerDir :=
  { entries := d.entries.filter (fun x => !(x.1 = e.1)) ++ [e],
    side := d.side }

/-- `UpdateManager._copy_new_files` (src/updater.py lines 648-727), success
path: copy every top-level source entry into the server directory, then
remove the side directory.  (A failing copy triggers the best-effort
restore from the side directory; that failure path is modelled by the
success flag in `Updater._update_with_fallback`.) -/
def _copy_new_files (src : List (String × Nat)) (d : ServerDir) : ServerDir :=
  { src.foldl copyOne d with side := none }

/-- `UpdateManager._update_with_fallback`, directory-level success path:
evacuate, then install. -/
def _update_with_fallback_fs (ts : String) (src : List (String × Nat))
    (d : ServerDir) : ServerDir :=
  _copy_new_files src (_move_files_to_backup ts d)

end VsMgr.FallbackSync

/-- C6: the fallback sync happy path on target `{A, B, serverconfig.json,
Mods}` and source `{A (new contents), C}`, for every timestamp and all
contents: afterwards the target's top-level entries are exactly
`{A (new contents), C, serverconfig.json (unchanged), Mods (unchanged)}` —
`B` removed, `A` replaced, `C` added, both preserved entries untouched —
and the timestamped side directory no longer exists. -/
theorem fallback_sync_happy_path (ts : String) (a b cfg mods a2 c : Nat) :
    VsMgr.FallbackSync._update_with_fallback_fs ts [("A", a2), ("C", c)]
        ⟨[("A", a), ("B", b), ("serverconfig.json", cfg), ("Mods", mods)],
         none⟩
      = ⟨[("serverconfig.json", cfg), ("Mods", mods), ("A", a2), ("C", c)],
         none⟩ := by
  rfl
